import Mathlib

/-!
Verification of the StudyFlow planner (`script.js`) streak and Pomodoro state
engine, together with the task-list, goal and settings operations referenced
by the specification.

Modelling conventions:
* Calendar days are modelled as integers.  The source represents a day as a
  `YYYY-MM-DD` ISO string and compares days with string equality and the
  lexicographic `<`; on well-formed ISO strings that order is exactly the
  chronological order of days, so `Int` with `=` and `<` is a faithful
  image, with `yesterday(today) = today - 1`.
* `updateStreak(true)` (the `recordCompletion` operation of the spec) and
  `updateStreak(false)` (the spec's `reconcileOnLoad`) are the two branches
  of the single source function `updateStreak`; they are embedded as two
  functions over an explicit `StreakState`.
* The milestone modal shown by `checkStreakMilestones` is made explicit as an
  `Option Nat` result (the milestone value displayed, if any); likewise the
  Pomodoro completion modal is an `Option String` result.
-/

/-- StreakState from `script.js`: `state.streak` with fields
`count`, `lastCompletionDate`, `lastRewardedDay`. -/
structure StreakState where
  count : Nat
  lastCompletionDate : Option Int
  lastRewardedDay : Option Int
deriving DecidableEq, Repr

/-- The fixed milestone set `STREAK_MILESTONES = [5, 10, 20, 50, 100]`. -/
def STREAK_MILESTONES : List Nat := [5, 10, 20, 50, 100]

/-- The spec's `yesterday(today)`: the calendar day before `today`.  The
source computes it by subtracting one day from the current date. -/
def yesterday (today : Int) : Int := today - 1

/-- checkStreakMilestones from `script.js`: if `lastRewardedDay` differs from
`today` and `count` is a milestone, show the milestone modal and set
`lastRewardedDay := today`.  Returns the updated state and the milestone
shown, if any. -/
def checkStreakMilestones (s : StreakState) (count : Nat) (today : Int) :
    StreakState × Option Nat :=
  if s.lastRewardedDay ≠ some today then
    match STREAK_MILESTONES.find? (fun m => m == count) with
    | some m => ({ s with lastRewardedDay := some today }, some m)
    | none => (s, none)
  else
    (s, none)

/-- updateStreak(true) from `script.js` (the spec's `recordCompletion`),
returning the updated streak state and the milestone modal shown, if any.
If a completion was already logged today, nothing changes and the milestone
check is skipped; otherwise `count` is incremented (when
`lastCompletionDate` was yesterday) or restarted at 1, `lastCompletionDate`
is set to `today`, and the milestone check runs. -/
def recordCompletionEmit (s : StreakState) (today : Int) :
    StreakState × Option Nat :=
  match s.lastCompletionDate with
  | some lastDate =>
    if lastDate = today then
      ({ s with lastCompletionDate := some today }, none)
    else
      let newCount := if lastDate = today - 1 then s.count + 1 else 1
      checkStreakMilestones
        { s with count := newCount, lastCompletionDate := some today }
        newCount today
  | none =>
      checkStreakMilestones
        { s with count := 1, lastCompletionDate := some today } 1 today

/-- The state component of `recordCompletionEmit`. -/
def recordCompletion (s : StreakState) (today : Int) : StreakState :=
  (recordCompletionEmit s today).1

/-- updateStreak(false) from `script.js` (the spec's `reconcileOnLoad`): if a
last completion exists and is strictly before yesterday, reset the streak;
otherwise leave the state unchanged. -/
def reconcileOnLoad (s : StreakState) (today : Int) : StreakState :=
  match s.lastCompletionDate with
  | some lastDate =>
      if lastDate < today - 1 then ⟨0, none, none⟩ else s
  | none => s

/-- Number of milestone modals shown over `n` consecutive calls of
`updateStreak(true)` on the same day `today`, starting from state `s`. -/
def milestonesEmitted (today : Int) : Nat → StreakState → Nat
  | 0, _ => 0
  | n + 1, s =>
      (if (recordCompletionEmit s today).2.isSome then 1 else 0) +
        milestonesEmitted today n (recordCompletionEmit s today).1

/-- Iterate `updateStreak(true)` on day `today`, `n` times. -/
def recordIter (today : Int) : Nat → StreakState → StreakState
  | 0, s => s
  | n + 1, s => recordIter today n (recordCompletion s today)

/-- Streak states reachable from the initial state
`{ count := 0, lastCompletionDate := null, lastRewardedDay := null }` by the
two streak-mutating operations of the source. -/
inductive StreakReachable : StreakState → Prop
  | init : StreakReachable ⟨0, none, none⟩
  | record (s : StreakState) (today : Int) :
      StreakReachable s → StreakReachable (recordCompletion s today)
  | reconcile (s : StreakState) (today : Int) :
      StreakReachable s → StreakReachable (reconcileOnLoad s today)

/-- Pomodoro mode: the JS `state.pomodoro.mode` strings
`'study' | 'short' | 'long'`. -/
inductive PomMode
  | study
  | short
  | long
deriving DecidableEq, Repr

/-- Fixed mode durations from `setPomodoroMode`: study 1500 s,
short break 300 s, long break 900 s. -/
def modeDuration : PomMode → Int
  | .study => 1500
  | .short => 300
  | .long => 900

/-- PomodoroState: `state.pomodoro` (`time`, `mode`, `running`) together with
the reset button's text, which the source uses as the
"session completed naturally" flag (`'Next Mode'` ↦ `true`,
`'Reset'` ↦ `false`). -/
structure PomState where
  time : Int
  mode : PomMode
  running : Bool
  resetBtnNextMode : Bool
deriving DecidableEq, Repr

/-- The end-of-session successor mode computed inside `handleTimerEnd`:
study → short break; short or long break → study. -/
def nextMode : PomMode → PomMode
  | .study => .short
  | .short => .study
  | .long => .study

/-- pauseTimer from `script.js`: clears the interval and sets
`running := false`, leaving `time` and `mode` alone. -/
def pauseTimer (s : PomState) : PomState :=
  { s with running := false }

/-- setPomodoroMode from `script.js`: pauses, sets the mode, and reloads
`time` with the mode's fixed duration. -/
def setPomodoroMode (s : PomState) (m : PomMode) : PomState :=
  { pauseTimer s with mode := m, time := modeDuration m }

/-- The completion modal text chosen in `handleTimerEnd` for each mode. -/
def timerEndMessage : PomMode → String
  | .study => "Study session complete! Time for a short break. You earned it!"
  | .short => "Break over. Time to focus on the next task!"
  | .long => "Break over. Time to focus on the next task!"

/-- handleTimerEnd from `script.js`: switch to the successor mode; unless the
switch is manual, show the completion modal first.  Returns the new state
and the modal shown, if any. -/
def handleTimerEnd (s : PomState) (manualSwitch : Bool) :
    PomState × Option String :=
  (setPomodoroMode s (nextMode s.mode),
    if manualSwitch then none else some (timerEndMessage s.mode))

/-- startTimer from `script.js`: no-op when already running; otherwise set
`running := true` and reset the button text to `'Reset'` (the countdown
interval itself is modelled by `tick`). -/
def startTimer (s : PomState) : PomState :=
  if s.running then s
  else { s with running := true, resetBtnNextMode := false }

/-- One execution of the 1-second interval callback installed by
`startTimer`: decrement `time`; when it reaches 0, stop, mark the button
`'Next Mode'`, and run `handleTimerEnd` (which shows the completion modal). -/
def tick (s : PomState) : PomState × Option String :=
  if s.time - 1 ≤ 0 then
    handleTimerEnd
      { s with time := s.time - 1, running := false, resetBtnNextMode := true }
      false
  else
    ({ s with time := s.time - 1 }, none)

/-- resetTimer from `script.js`: pause, then either advance to the next mode
without a modal (button text `'Next Mode'`, i.e. the session completed
naturally) or reload the current mode's duration (button text `'Reset'`). -/
def resetTimer (s : PomState) : PomState × Option String :=
  let s₁ := pauseTimer s
  if s₁.resetBtnNextMode then
    handleTimerEnd s₁ true
  else
    (setPomodoroMode s₁ s₁.mode, none)

/-- Run `n` ticks from state `s`; returns the final state and the number of
completion modals shown along the way. -/
def runTicks : Nat → PomState → PomState × Nat
  | 0, s => (s, 0)
  | n + 1, s =>
      ((runTicks n (tick s).1).1,
        (if (tick s).2.isSome then 1 else 0) + (runTicks n (tick s).1).2)

/-- StudyTask status enum: `'pending' | 'completed'`. -/
inductive TaskStatus
  | pending
  | completed
deriving DecidableEq, Repr

/-- A task record as created by the task-form submit handler in
`script.js`. -/
structure StudyTask where
  id : Int
  title : String
  subject : String
  category : String
  deadline : String
  priority : String
  status : TaskStatus
deriving DecidableEq, Repr

/-- The non-id fields entered in the task form. -/
structure StudyTaskFields where
  title : String
  subject : String
  category : String
  deadline : String
  priority : String
deriving DecidableEq, Repr

/-- getNextTaskId from `script.js`:
`tasks.length > 0 ? Math.max(...tasks.map(t => t.id)) + 1 : 1`. -/
def getNextTaskId (tasks : List StudyTask) : Int :=
  match tasks.map (fun t => t.id) with
  | [] => 1
  | x :: xs => xs.foldl max x + 1

/-- The add branch of the task-form submit handler: push a new task with id
`getNextTaskId tasks` and status `'pending'`. -/
def addTask (tasks : List StudyTask) (f : StudyTaskFields) : List StudyTask :=
  tasks ++
    [⟨getNextTaskId tasks, f.title, f.subject, f.category, f.deadline,
      f.priority, .pending⟩]

/-- The edit branch of the task-form submit handler: `findIndex` by id, then
overwrite the found task's form fields (its id and status are untouched).
A missing id is a no-op. -/
def editTaskSubmit : List StudyTask → Int → StudyTaskFields → List StudyTask
  | [], _, _ => []
  | t :: ts, id, f =>
      if t.id = id then
        { t with
          title := f.title
          subject := f.subject
          category := f.category
          deadline := f.deadline
          priority := f.priority } :: ts
      else
        t :: editTaskSubmit ts id f

/-- deleteTask from `script.js`: `tasks.filter(t => t.id !== id)`. -/
def deleteTask (tasks : List StudyTask) (id : Int) : List StudyTask :=
  tasks.filter (fun t => t.id ≠ id)

/-- Set the status of the first task with the given id (the object mutated by
`toggleTaskStatus` is the first `find` hit). -/
def setStatusFirst : List StudyTask → Int → TaskStatus → List StudyTask
  | [], _, _ => []
  | t :: ts, id, st =>
      if t.id = id then { t with status := st } :: ts
      else t :: setStatusFirst ts id st

/-- The task list together with the streak state, the two parts of the global
`state` that `toggleTaskStatus` touches. -/
structure TasksAndStreak where
  tasks : List StudyTask
  streak : StreakState
deriving DecidableEq, Repr

/-- toggleTaskStatus from `script.js`: find the task by id (missing id is a
no-op), flip its status, and when the new status is `'completed'` call
`updateStreak(true)` once. -/
def toggleTaskStatus (a : TasksAndStreak) (id : Int) (today : Int) :
    TasksAndStreak :=
  match a.tasks.find? (fun t => t.id == id) with
  | none => a
  | some task =>
      let newStatus : TaskStatus :=
        if task.status = .pending then .completed else .pending
      { tasks := setStatusFirst a.tasks id newStatus,
        streak :=
          if newStatus = .completed then recordCompletion a.streak today
          else a.streak }

/-- StudyTask lists reachable from the empty list by the source's task
operations. -/
inductive TasksReachable : List StudyTask → Prop
  | init : TasksReachable []
  | add (ts : List StudyTask) (f : StudyTaskFields) :
      TasksReachable ts → TasksReachable (addTask ts f)
  | edit (ts : List StudyTask) (id : Int) (f : StudyTaskFields) :
      TasksReachable ts → TasksReachable (editTaskSubmit ts id f)
  | del (ts : List StudyTask) (id : Int) :
      TasksReachable ts → TasksReachable (deleteTask ts id)
  | toggle (ts : List StudyTask) (id : Int) (st : TaskStatus) :
      TasksReachable ts → TasksReachable (setStatusFirst ts id st)

/-- A subject goal: `state.goals[subject]`, with fields `totalGoal` and
`hoursLogged`. -/
structure Goal where
  totalGoal : Int
  hoursLogged : Int
deriving DecidableEq, Repr

/-- Write `totalGoal := hours` for `subject`, inserting a fresh goal with
`totalGoal := hours` and `hoursLogged := 0` when the subject has no goal
yet (the valid branch of the goal-form handler). -/
def updateGoals : List (String × Goal) → String → Int → List (String × Goal)
  | [], subject, hours => [(subject, ⟨hours, 0⟩)]
  | (k, g) :: rest, subject, hours =>
      if k = subject then (k, { g with totalGoal := hours }) :: rest
      else (k, g) :: updateGoals rest subject hours

/-- The goal-form submit handler from `script.js`: when the subject is
non-empty and the parsed hours are positive, update the goals map and show
the `'Goal Set'` modal; otherwise do nothing at all (no modal is shown).
Returns the new goals map and the modal title shown, if any. -/
def goalFormSubmit (goals : List (String × Goal)) (subject : String)
    (hours : Int) : List (String × Goal) × Option String :=
  if subject ≠ "" ∧ 0 < hours then
    (updateGoals goals subject hours, some "Goal Set")
  else
    (goals, none)

/-- The JS `String.prototype.trim()` used by `saveSettings`: drop leading and
trailing whitespace. -/
def jsTrim (s : String) : String :=
  String.mk
    (((s.toList.dropWhile (fun c => c.isWhitespace)).reverse.dropWhile
        (fun c => c.isWhitespace)).reverse)

/-- saveSettings('name') from `script.js`: trim the input; a non-empty result
replaces `state.userName` and shows the `'Profile Updated'` modal, an empty
result leaves the name alone and shows the `'Error'` modal.  Returns the new
`userName` and the modal title shown. -/
def saveSettingsName (userName : String) (input : String) : String × String :=
  let newName := jsTrim input
  if newName ≠ "" then (newName, "Profile Updated")
  else (userName, "Error")


/-! ### Helper lemmas about the streak operations -/

/-- The milestone check never touches `count`. -/
theorem checkStreakMilestones_fst_count (s : StreakState) (c : Nat) (t : Int) :
    (checkStreakMilestones s c t).1.count = s.count := by
  unfold checkStreakMilestones
  split
  · split <;> rfl
  · rfl

/-- The milestone check never touches `lastCompletionDate`. -/
theorem checkStreakMilestones_fst_lastDate (s : StreakState) (c : Nat) (t : Int) :
    (checkStreakMilestones s c t).1.lastCompletionDate = s.lastCompletionDate := by
  unfold checkStreakMilestones
  split
  · split <;> rfl
  · rfl

/-- After any `updateStreak(true)` call on day `t`, `lastCompletionDate`
is `t`. -/
theorem recordCompletionEmit_fst_lastDate (s : StreakState) (t : Int) :
    (recordCompletionEmit s t).1.lastCompletionDate = some t := by
  unfold recordCompletionEmit
  cases h : s.lastCompletionDate with
  | none => rw [checkStreakMilestones_fst_lastDate]
  | some d =>
      by_cases hd : d = t
      · simp [hd]
      · simp only [if_neg hd, checkStreakMilestones_fst_lastDate]

/-- A same-day `updateStreak(true)` call is a complete no-op: the state is
returned unchanged and no milestone modal is shown. -/
theorem recordCompletionEmit_sameDay (s : StreakState) (t : Int)
    (h : s.lastCompletionDate = some t) :
    recordCompletionEmit s t = (s, none) := by
  obtain ⟨c, d, r⟩ := s
  obtain rfl : d = some t := h
  simp [recordCompletionEmit]

/-- State form of `recordCompletionEmit_sameDay`. -/
theorem recordCompletion_sameDay (s : StreakState) (t : Int)
    (h : s.lastCompletionDate = some t) : recordCompletion s t = s := by
  unfold recordCompletion
  rw [recordCompletionEmit_sameDay s t h]

/-- Once `lastCompletionDate` is `today`, any number of further
`updateStreak(true)` calls that day leave the state untouched. -/
theorem recordIter_sameDay (t : Int) (n : Nat) (s : StreakState)
    (h : s.lastCompletionDate = some t) : recordIter t n s = s := by
  induction n with
  | zero => rfl
  | succ n ih =>
      unfold recordIter
      rw [recordCompletion_sameDay s t h, ih]

/-! ### Claim theorems: streak tracker -/

/-- C1.  For every streak state whose `lastCompletionDate` is not `today`,
`recordCompletion(today)` sets `lastCompletionDate` to `today` and sets
`count` to the old `count + 1` when `lastCompletionDate` was
`yesterday(today)`, and to `1` in every other case (no prior date, prior
date older than yesterday, or prior date in the future). -/
theorem recordCompletion_newDay (s : StreakState) (today : Int)
    (h : s.lastCompletionDate ≠ some today) :
    (recordCompletion s today).lastCompletionDate = some today ∧
    (recordCompletion s today).count =
      if s.lastCompletionDate = some (yesterday today) then s.count + 1
      else 1 := by
  refine ⟨recordCompletionEmit_fst_lastDate s today, ?_⟩
  unfold recordCompletion recordCompletionEmit
  cases hd : s.lastCompletionDate with
  | none => simp [checkStreakMilestones_fst_count]
  | some d =>
      have hdt : d ≠ today := by
        intro hc
        exact h (by rw [hd, hc])
      by_cases hy : d = yesterday today
      · simp [hdt, hy, yesterday, checkStreakMilestones_fst_count]
      · have hy' : d ≠ today - 1 := fun hc => hy (by rw [hc]; rfl)
        simp [hdt, hy', yesterday, checkStreakMilestones_fst_count]

/-- Witness for `recordCompletion_newDay` at the state with streak 3 and
last completion on day 9, recording on day 10. -/
theorem recordCompletion_newDay_witness :
    (recordCompletion ⟨3, some 9, none⟩ 10).lastCompletionDate = some 10 ∧
    (recordCompletion ⟨3, some 9, none⟩ 10).count =
      if (⟨3, some 9, none⟩ : StreakState).lastCompletionDate
          = some (yesterday 10) then
        (⟨3, some 9, none⟩ : StreakState).count + 1
      else 1 :=
  recordCompletion_newDay ⟨3, some 9, none⟩ 10 (by decide)

/-- C2.  `recordCompletion` is idempotent within a calendar day: when
`lastCompletionDate = today` the count is unchanged, and over any sequence
of same-day calls the count after the first call equals the count after
every subsequent call. -/
theorem recordCompletion_idempotent (s₀ s : StreakState) (today : Int)
    (h : s.lastCompletionDate = some today) :
    (recordCompletion s today).count = s.count ∧
    ∀ n, (recordIter today n (recordCompletion s₀ today)).count =
      (recordCompletion s₀ today).count := by
  constructor
  · rw [recordCompletion_sameDay s today h]
  · intro n
    rw [recordIter_sameDay today n (recordCompletion s₀ today)
      (recordCompletionEmit_fst_lastDate s₀ today)]

/-- Witness for `recordCompletion_idempotent`: a second completion on day 10
after the (fresh) state has already recorded day 10. -/
theorem recordCompletion_idempotent_witness :
    (recordCompletion ⟨4, some 10, none⟩ 10).count = 4 ∧
    ∀ n, (recordIter 10 n (recordCompletion ⟨3, some 9, none⟩ 10)).count =
      (recordCompletion ⟨3, some 9, none⟩ 10).count :=
  recordCompletion_idempotent ⟨3, some 9, none⟩ ⟨4, some 10, none⟩ 10 (by decide)

/-- C3.  `reconcileOnLoad(today)` never increments the count: when a last
completion exists strictly before `yesterday(today)` it resets the whole
streak record (count 0, both dates null), and in every other case it leaves
the state unchanged. -/
theorem reconcileOnLoad_resets_only (s : StreakState) (today : Int) :
    ((∃ d, s.lastCompletionDate = some d ∧ d < yesterday today) →
        reconcileOnLoad s today = ⟨0, none, none⟩) ∧
    ((∀ d, s.lastCompletionDate = some d → ¬ d < yesterday today) →
        reconcileOnLoad s today = s) ∧
    (reconcileOnLoad s today).count ≤ s.count := by
  unfold reconcileOnLoad
  cases hd : s.lastCompletionDate with
  | none =>
      refine ⟨?_, fun _ => rfl, le_refl _⟩
      rintro ⟨d, hcontra, -⟩
      exact absurd hcontra (by simp)
  | some d =>
      by_cases hlt : d < today - 1
      · refine ⟨fun _ => by simp [hlt], ?_, ?_⟩
        · intro hall
          exact absurd hlt (hall d rfl)
        · simp [hlt]
      · refine ⟨?_, fun _ => by simp [hlt], by simp [hlt]⟩
        rintro ⟨d', hd', hlt'⟩
        obtain rfl : d = d' := Option.some.inj hd'
        exact absurd hlt' hlt

/-- Witness for `reconcileOnLoad_resets_only`: a 3-day-old completion is
reset on load at day 10; a yesterday completion is left unchanged. -/
theorem reconcileOnLoad_resets_only_witness :
    reconcileOnLoad ⟨3, some 7, some 7⟩ 10 = ⟨0, none, none⟩ ∧
    reconcileOnLoad ⟨3, some 9, some 9⟩ 10 = ⟨3, some 9, some 9⟩ :=
  ⟨(reconcileOnLoad_resets_only ⟨3, some 7, some 7⟩ 10).1
      ⟨7, rfl, by norm_num [yesterday]⟩,
   (reconcileOnLoad_resets_only ⟨3, some 9, some 9⟩ 10).2.1
      (by rintro d ⟨rfl⟩; norm_num [yesterday])⟩

/-- The milestone lookup `STREAK_MILESTONES.find(m => m === count)` finds
`count` exactly when `count` is a member of the milestone list. -/
theorem find_milestone_eq (count : Nat) :
    STREAK_MILESTONES.find? (fun m => m == count) =
      if count ∈ STREAK_MILESTONES then some count else none := by
  by_cases h : count ∈ STREAK_MILESTONES
  · rw [if_pos h]
    fin_cases h <;> rfl
  · rw [if_neg h, List.find?_eq_none]
    intro x hx
    simp only [beq_iff_eq]
    intro hxc
    exact h (hxc ▸ hx)

/-- Same-day `updateStreak(true)` calls can never show a milestone modal. -/
theorem milestonesEmitted_sameDay (today : Int) (n : Nat) (s : StreakState)
    (h : s.lastCompletionDate = some today) :
    milestonesEmitted today n s = 0 := by
  induction n with
  | zero => rfl
  | succ n ih =>
      unfold milestonesEmitted
      rw [recordCompletionEmit_sameDay s today h]
      simpa using ih

/-- Over any run of `updateStreak(true)` calls on one day, at most one
milestone modal is shown. -/
theorem milestonesEmitted_le_one (today : Int) (n : Nat) (s : StreakState) :
    milestonesEmitted today n s ≤ 1 := by
  cases n with
  | zero => exact Nat.zero_le _
  | succ n =>
      unfold milestonesEmitted
      rw [milestonesEmitted_sameDay today n (recordCompletionEmit s today).1
        (recordCompletionEmit_fst_lastDate s today)]
      split <;> simp

/-- C4.  `checkMilestone(count, today)` returns a milestone value exactly
when `today` differs from `lastRewardedDay` and `count` is one of
5, 10, 20, 50, 100; in that case it sets `lastRewardedDay := today`.
Consequently any number of `recordCompletion` calls on one calendar day
shows at most one milestone modal. -/
theorem checkMilestone_once_per_day (s : StreakState) (count : Nat)
    (today : Int) :
    ((checkStreakMilestones s count today).2.isSome ↔
        (s.lastRewardedDay ≠ some today ∧ count ∈ STREAK_MILESTONES)) ∧
    ((checkStreakMilestones s count today).2.isSome →
        (checkStreakMilestones s count today).1.lastRewardedDay = some today) ∧
    (∀ n, milestonesEmitted today n s ≤ 1) := by
  refine ⟨?_, ?_, fun n => milestonesEmitted_le_one today n s⟩ <;>
      unfold checkStreakMilestones <;>
      rw [find_milestone_eq count] <;>
      by_cases hr : s.lastRewardedDay ≠ some today <;>
      by_cases hm : count ∈ STREAK_MILESTONES <;>
      simp [hr, hm]

/-- Witness for `checkMilestone_once_per_day`: count 5 on day 3 with no
previous reward marks day 3 as rewarded. -/
theorem checkMilestone_once_per_day_witness :
    (checkStreakMilestones ⟨5, some 2, none⟩ 5 3).1.lastRewardedDay
      = some 3 :=
  (checkMilestone_once_per_day ⟨5, some 2, none⟩ 5 3).2.1 (by decide)

/-- After a non-degenerate `updateStreak(true)` call the count is never 0;
the same-day no-op case needs the count to have been nonzero already. -/
theorem recordCompletion_count_ne_zero (s : StreakState) (t : Int)
    (h : s.lastCompletionDate = some t → s.count ≠ 0) :
    (recordCompletion s t).count ≠ 0 := by
  unfold recordCompletion recordCompletionEmit
  cases hd : s.lastCompletionDate with
  | none => simp [checkStreakMilestones_fst_count]
  | some d =>
      by_cases hdt : d = t
      · subst hdt
        simpa using h hd
      · simp only [if_neg hdt, checkStreakMilestones_fst_count]
        split <;> simp

/-- The `count == 0` iff `lastCompletionDate == null` invariant is preserved
by `updateStreak(true)`. -/
theorem streak_inv_record (s : StreakState) (t : Int)
    (h : s.count = 0 ↔ s.lastCompletionDate = none) :
    ((recordCompletion s t).count = 0 ↔
      (recordCompletion s t).lastCompletionDate = none) := by
  have h1 : (recordCompletion s t).lastCompletionDate = some t :=
    recordCompletionEmit_fst_lastDate s t
  have h2 : (recordCompletion s t).count ≠ 0 := by
    refine recordCompletion_count_ne_zero s t fun hd hc => ?_
    rw [h.mp hc] at hd
    cases hd
  constructor
  · exact fun hc => absurd hc h2
  · intro hn
    rw [h1] at hn
    cases hn

/-- The `count == 0` iff `lastCompletionDate == null` invariant is preserved
by `updateStreak(false)`. -/
theorem streak_inv_reconcile (s : StreakState) (t : Int)
    (h : s.count = 0 ↔ s.lastCompletionDate = none) :
    ((reconcileOnLoad s t).count = 0 ↔
      (reconcileOnLoad s t).lastCompletionDate = none) := by
  obtain ⟨c, date, r⟩ := s
  cases date with
  | none => exact h
  | some d =>
      have hred : reconcileOnLoad ⟨c, some d, r⟩ t =
          if d < t - 1 then ⟨0, none, none⟩ else ⟨c, some d, r⟩ := rfl
      rw [hred]
      by_cases hlt : d < t - 1
      · rw [if_pos hlt]
        simp
      · rw [if_neg hlt]
        exact h

/-- The invariant holds for every reachable streak state. -/
theorem streak_inv_reachable (s : StreakState) (h : StreakReachable s) :
    s.count = 0 ↔ s.lastCompletionDate = none := by
  induction h with
  | init => simp
  | record s t _ ih => exact streak_inv_record s t ih
  | reconcile s t _ ih => exact streak_inv_reconcile s t ih

/-- C5.  `count == 0` iff `lastCompletionDate == null` holds in the initial
state, is preserved by `recordCompletion` and `reconcileOnLoad`, and
therefore holds in every reachable streak state. -/
theorem streak_count_iff_lastDate :
    ((⟨0, none, none⟩ : StreakState).count = 0 ↔
      (⟨0, none, none⟩ : StreakState).lastCompletionDate = none) ∧
    (∀ (s : StreakState) (t : Int),
      (s.count = 0 ↔ s.lastCompletionDate = none) →
        ((recordCompletion s t).count = 0 ↔
          (recordCompletion s t).lastCompletionDate = none)) ∧
    (∀ (s : StreakState) (t : Int),
      (s.count = 0 ↔ s.lastCompletionDate = none) →
        ((reconcileOnLoad s t).count = 0 ↔
          (reconcileOnLoad s t).lastCompletionDate = none)) ∧
    (∀ s : StreakState, StreakReachable s →
      (s.count = 0 ↔ s.lastCompletionDate = none)) :=
  ⟨by simp, streak_inv_record, streak_inv_reconcile, streak_inv_reachable⟩

/-- Witness for `streak_count_iff_lastDate`: the invariant at the reachable
state obtained by one completion on day 5, and preservation under a load
reconcile at day 9 from a concrete invariant-satisfying state. -/
theorem streak_count_iff_lastDate_witness :
    ((recordCompletion ⟨0, none, none⟩ 5).count = 0 ↔
      (recordCompletion ⟨0, none, none⟩ 5).lastCompletionDate = none) ∧
    ((reconcileOnLoad ⟨3, some 1, none⟩ 9).count = 0 ↔
      (reconcileOnLoad ⟨3, some 1, none⟩ 9).lastCompletionDate = none) :=
  ⟨streak_count_iff_lastDate.2.2.2 (recordCompletion ⟨0, none, none⟩ 5)
      (StreakReachable.record ⟨0, none, none⟩ 5 StreakReachable.init),
   streak_count_iff_lastDate.2.2.1 ⟨3, some 1, none⟩ 9 (by decide)⟩

/-! ### Helper lemmas about the Pomodoro engine -/

/-- A tick with more than one second left just decrements the clock. -/
theorem tick_noEnd (s : PomState) (h : 1 < s.time) :
    tick s = ({ s with time := s.time - 1 }, none) := by
  unfold tick
  rw [if_neg (by omega)]

/-- Running `n + 1` ticks with more than `n` seconds on the clock is the same
as running a single tick after the clock has counted down by `n`. -/
theorem runTicks_shift (n : Nat) : ∀ s : PomState, (n : Int) < s.time →
    runTicks (n + 1) s = runTicks 1 { s with time := s.time - (n : Int) } := by
  induction n with
  | zero =>
      intro s h
      have : ({ s with time := s.time - ((0 : Nat) : Int) } : PomState) = s := by
        simp
      rw [this]
  | succ n ih =>
      intro s h
      have hcast : ((n : Int) + 1) < s.time := by exact_mod_cast h
      have htick : tick s = ({ s with time := s.time - 1 }, none) :=
        tick_noEnd s (by omega)
      have hrest := ih { s with time := s.time - 1 } (by simp; omega)
      rw [show n + 1 + 1 = (n + 1) + 1 from rfl, runTicks, htick, hrest]
      have harith : s.time - 1 - (n : Int) = s.time - ((n : Nat) + 1 : Nat) := by
        push_cast
        ring
      simp [harith]

/-! ### Claim theorems: Pomodoro engine -/

/-- C6.  From study mode with 1500 seconds and the timer running, exactly
1500 ticks stop the timer, switch to the short break with 300 seconds, and
show exactly one completion modal; the end-of-session transition maps study
to the short break and both breaks back to study, never selecting the long
break automatically. -/
theorem pomodoro_study_session :
    runTicks 1500 ⟨1500, PomMode.study, true, false⟩ =
      (⟨300, PomMode.short, false, true⟩, 1) ∧
    nextMode PomMode.study = PomMode.short ∧
    nextMode PomMode.short = PomMode.study ∧
    nextMode PomMode.long = PomMode.study ∧
    nextMode PomMode.study ≠ PomMode.long ∧
    nextMode PomMode.short ≠ PomMode.long ∧
    nextMode PomMode.long ≠ PomMode.long := by
  refine ⟨?_, rfl, rfl, rfl, by decide, by decide, by decide⟩
  have h := runTicks_shift 1499 ⟨1500, PomMode.study, true, false⟩ (by norm_num)
  rw [show (1500 : Nat) = 1499 + 1 from rfl, h]
  norm_num
  decide

/-- C7.  When no natural completion has occurred since the last start or
reset (reset button shows `'Reset'`), `pause()` then `reset()` reloads the
current mode's fixed duration without changing mode; when the session did
complete naturally (button shows `'Next Mode'`), `reset()` advances to the
next mode with no completion modal. -/
theorem reset_after_pause (s : PomState) :
    (s.resetBtnNextMode = false →
        resetTimer (pauseTimer s) =
          ({ s with running := false, time := modeDuration s.mode }, none)) ∧
    (s.resetBtnNextMode = true →
        (resetTimer s).1.mode = nextMode s.mode ∧
        (resetTimer s).1.time = modeDuration (nextMode s.mode) ∧
        (resetTimer s).2 = none) := by
  constructor
  · intro h
    simp [resetTimer, pauseTimer, setPomodoroMode, h]
  · intro h
    simp [resetTimer, pauseTimer, handleTimerEnd, setPomodoroMode, h]

/-- Witness for `reset_after_pause`: a paused mid-study session is reloaded
to 1500 s in study mode; after a natural completion, reset advances from
study to the short break silently. -/
theorem reset_after_pause_witness :
    resetTimer (pauseTimer ⟨700, PomMode.study, true, false⟩) =
      (⟨1500, PomMode.study, false, false⟩, none) ∧
    ((resetTimer ⟨0, PomMode.study, false, true⟩).1.mode =
        nextMode PomMode.study ∧
      (resetTimer ⟨0, PomMode.study, false, true⟩).1.time =
        modeDuration (nextMode PomMode.study) ∧
      (resetTimer ⟨0, PomMode.study, false, true⟩).2 = none) :=
  ⟨(reset_after_pause ⟨700, PomMode.study, true, false⟩).1 rfl,
   (reset_after_pause ⟨0, PomMode.study, false, true⟩).2 rfl⟩

/-! ### Claim theorems: task toggling, input validation -/

/-- C8.  Toggling a completed task back to pending leaves the entire streak
state untouched, while toggling a pending task to completed applies
`recordCompletion` exactly once. -/
theorem toggleTaskStatus_streak (a : TasksAndStreak) (id today : Int)
    (t : StudyTask) (hf : a.tasks.find? (fun u => u.id == id) = some t) :
    (t.status = TaskStatus.completed →
        (toggleTaskStatus a id today).streak = a.streak) ∧
    (t.status = TaskStatus.pending →
        (toggleTaskStatus a id today).streak =
          recordCompletion a.streak today) := by
  constructor
  · intro h
    simp [toggleTaskStatus, hf, h]
  · intro h
    simp [toggleTaskStatus, hf, h]

/-- Witness for `toggleTaskStatus_streak`: reverting a completed task keeps
the streak; completing a pending task records a completion. -/
theorem toggleTaskStatus_streak_witness :
    (toggleTaskStatus
        ⟨[⟨1, "Essay", "English", "Homework", "2025-01-10", "High",
            TaskStatus.completed⟩], ⟨2, some 5, none⟩⟩ 1 6).streak =
      (⟨2, some 5, none⟩ : StreakState) ∧
    (toggleTaskStatus
        ⟨[⟨1, "Essay", "English", "Homework", "2025-01-10", "High",
            TaskStatus.pending⟩], ⟨2, some 5, none⟩⟩ 1 6).streak =
      recordCompletion ⟨2, some 5, none⟩ 6 :=
  ⟨(toggleTaskStatus_streak
      ⟨[⟨1, "Essay", "English", "Homework", "2025-01-10", "High",
          TaskStatus.completed⟩], ⟨2, some 5, none⟩⟩ 1 6
      ⟨1, "Essay", "English", "Homework", "2025-01-10", "High",
        TaskStatus.completed⟩ rfl).1 rfl,
   (toggleTaskStatus_streak
      ⟨[⟨1, "Essay", "English", "Homework", "2025-01-10", "High",
          TaskStatus.pending⟩], ⟨2, some 5, none⟩⟩ 1 6
      ⟨1, "Essay", "English", "Homework", "2025-01-10", "High",
        TaskStatus.pending⟩ rfl).2 rfl⟩

/-- C9 counterexample.  Submitting the goal form with non-positive hours
does leave the goals mapping unchanged, but no user-visible message is
shown: the handler's guard fails silently and no modal is opened,
contradicting the claim that invalid goal input is rejected with a
user-visible message. -/
theorem goalForm_rejects_silently :
    (goalFormSubmit [] "Math" 0).1 = [] ∧
    ¬ (goalFormSubmit [] "Math" 0).2.isSome := by
  constructor
  · rfl
  · decide

/-- C9 (amended).  Submitting the goal form with non-positive hours leaves
the goals mapping unchanged and shows no message at all, while saving an
empty (all-whitespace) user name leaves `userName` unchanged and shows the
`'Error'` modal. -/
theorem invalid_input_no_mutation (goals : List (String × Goal))
    (subject : String) (hours : Int) (userName input : String) :
    (hours ≤ 0 → goalFormSubmit goals subject hours = (goals, none)) ∧
    (jsTrim input = "" → saveSettingsName userName input = (userName, "Error")) := by
  constructor
  · intro h
    unfold goalFormSubmit
    rw [if_neg]
    rintro ⟨-, hpos⟩
    exact absurd hpos (not_lt.mpr h)
  · intro h
    unfold saveSettingsName
    simp [h]

/-- Witness for `invalid_input_no_mutation`: zero goal hours and a
whitespace-only name. -/
theorem invalid_input_no_mutation_witness :
    goalFormSubmit [("Math", ⟨4, 1⟩)] "Math" 0 = ([("Math", ⟨4, 1⟩)], none) ∧
    saveSettingsName "Ann" "  " = ("Ann", "Error") :=
  ⟨(invalid_input_no_mutation [("Math", ⟨4, 1⟩)] "Math" 0 "Ann" "  ").1
      (by norm_num),
   (invalid_input_no_mutation [("Math", ⟨4, 1⟩)] "Math" 0 "Ann" "  ").2
      (by decide)⟩

/-! ### Helper lemmas about task ids -/

/-- The seed of a left max-fold is a lower bound of the result. -/
theorem foldl_max_init_le (xs : List Int) : ∀ x : Int, x ≤ xs.foldl max x := by
  induction xs with
  | nil => intro x; exact le_refl x
  | cons z xs ih =>
      intro x
      exact le_trans (le_max_left x z) (ih (max x z))

/-- Every member of the list is bounded by the left max-fold. -/
theorem mem_le_foldl_max (xs : List Int) :
    ∀ x y : Int, y ∈ xs → y ≤ xs.foldl max x := by
  induction xs with
  | nil =>
      intro x y h
      cases h
  | cons z xs ih =>
      intro x y h
      rcases List.mem_cons.mp h with rfl | h
      · exact le_trans (le_max_right x y) (foldl_max_init_le xs (max x y))
      · exact ih (max x z) y h

/-- The left max-fold is attained: it is the seed or a member of the list. -/
theorem foldl_max_mem (xs : List Int) :
    ∀ x : Int, xs.foldl max x = x ∨ xs.foldl max x ∈ xs := by
  induction xs with
  | nil => intro x; exact Or.inl rfl
  | cons z xs ih =>
      intro x
      rw [List.foldl_cons]
      rcases ih (max x z) with h | h
      · rcases max_choice x z with hm | hm
        · exact Or.inl (h.trans hm)
        · refine Or.inr ?_
          rw [h, hm]
          exact List.mem_cons_self z xs
      · exact Or.inr (List.mem_cons_of_mem z h)

/-- Characterisation of `getNextTaskId` on a list with a non-empty image. -/
theorem getNextTaskId_eq (ts : List StudyTask) (x : Int) (xs : List Int)
    (hm : ts.map (fun u => u.id) = x :: xs) :
    getNextTaskId ts = xs.foldl max x + 1 := by
  unfold getNextTaskId
  rw [hm]

/-- `getNextTaskId` is strictly larger than every existing id. -/
theorem getNextTaskId_gt (ts : List StudyTask) :
    ∀ t ∈ ts, t.id < getNextTaskId ts := by
  intro t ht
  cases hm : ts.map (fun u => u.id) with
  | nil =>
      exact absurd (List.map_eq_nil_iff.mp hm ▸ ht) (List.not_mem_nil t)
  | cons x xs =>
      rw [getNextTaskId_eq ts x xs hm]
      have hmem : t.id ∈ x :: xs := hm ▸ List.mem_map_of_mem _ ht
      have hle : t.id ≤ xs.foldl max x := by
        rcases List.mem_cons.mp hmem with heq | hmem'
        · rw [heq]
          exact foldl_max_init_le xs x
        · exact mem_le_foldl_max xs x t.id hmem'
      omega

/-- For a non-empty task list, `getNextTaskId` is the maximum id plus one. -/
theorem getNextTaskId_attained (ts : List StudyTask) (h : ts ≠ []) :
    ∃ t ∈ ts, getNextTaskId ts = t.id + 1 := by
  cases hm : ts.map (fun u => u.id) with
  | nil => exact absurd (List.map_eq_nil_iff.mp hm) h
  | cons x xs =>
      rw [getNextTaskId_eq ts x xs hm]
      rcases foldl_max_mem xs x with hfx | hfx
      · have hx : x ∈ ts.map (fun u => u.id) := by
          rw [hm]
          exact List.mem_cons_self x xs
        obtain ⟨t, ht, hid⟩ := List.mem_map.mp hx
        exact ⟨t, ht, by rw [hfx, hid]⟩
      · have hx : xs.foldl max x ∈ ts.map (fun u => u.id) := by
          rw [hm]
          exact List.mem_cons_of_mem x hfx
        obtain ⟨t, ht, hid⟩ := List.mem_map.mp hx
        exact ⟨t, ht, by rw [hid]⟩

/-- Editing a task changes no ids. -/
theorem editTaskSubmit_map_id (ts : List StudyTask) (id : Int)
    (f : StudyTaskFields) :
    (editTaskSubmit ts id f).map (fun t => t.id) = ts.map (fun t => t.id) := by
  induction ts with
  | nil => rfl
  | cons t ts ih =>
      unfold editTaskSubmit
      by_cases h : t.id = id <;> simp [h, ih]

/-- Toggling a task's status changes no ids. -/
theorem setStatusFirst_map_id (ts : List StudyTask) (id : Int)
    (st : TaskStatus) :
    (setStatusFirst ts id st).map (fun t => t.id) = ts.map (fun t => t.id) := by
  induction ts with
  | nil => rfl
  | cons t ts ih =>
      unfold setStatusFirst
      by_cases h : t.id = id <;> simp [h, ih]

/-- Adding a task with `getNextTaskId` preserves distinctness of ids. -/
theorem addTask_nodup (ts : List StudyTask) (f : StudyTaskFields)
    (h : (ts.map (fun t => t.id)).Nodup) :
    ((addTask ts f).map (fun t => t.id)).Nodup := by
  unfold addTask
  rw [List.map_append, List.nodup_append]
  refine ⟨h, by simp, ?_⟩
  intro a ha hb
  simp only [List.map_cons, List.map_nil, List.mem_singleton] at hb
  obtain ⟨t, ht, rfl⟩ := List.mem_map.mp ha
  exact absurd hb (ne_of_lt (getNextTaskId_gt ts t ht))

/-- Every reachable task list has pairwise distinct ids. -/
theorem tasksReachable_nodup (ts : List StudyTask) (h : TasksReachable ts) :
    (ts.map (fun t => t.id)).Nodup := by
  induction h with
  | init => simp
  | add ts f _ ih => exact addTask_nodup ts f ih
  | edit ts id f _ ih =>
      rw [editTaskSubmit_map_id]
      exact ih
  | del ts id _ ih =>
      exact List.Nodup.sublist (List.Sublist.map _ (List.filter_sublist ts)) ih
  | toggle ts id st _ ih =>
      rw [setStatusFirst_map_id]
      exact ih

/-- C10.  Task ids are pairwise distinct in every reachable task list:
`getNextTaskId` returns 1 on the empty list and the maximum existing id
plus one otherwise (so adding never duplicates an id), and editing or
deleting a task never changes a surviving task's id. -/
theorem taskIds_pairwise_distinct :
    getNextTaskId [] = 1 ∧
    (∀ ts : List StudyTask, ts ≠ [] →
        (∀ t ∈ ts, t.id < getNextTaskId ts) ∧
        ∃ t ∈ ts, getNextTaskId ts = t.id + 1) ∧
    (∀ ts : List StudyTask, TasksReachable ts →
        (ts.map (fun t => t.id)).Nodup) ∧
    (∀ (ts : List StudyTask) (id : Int) (f : StudyTaskFields),
        (editTaskSubmit ts id f).map (fun t => t.id) =
          ts.map (fun t => t.id)) ∧
    (∀ (ts : List StudyTask) (id : Int), ∀ t ∈ deleteTask ts id, t ∈ ts) :=
  ⟨rfl,
   fun ts h => ⟨getNextTaskId_gt ts, getNextTaskId_attained ts h⟩,
   tasksReachable_nodup,
   editTaskSubmit_map_id,
   fun _ _ _ ht => List.mem_of_mem_filter ht⟩

/-- Witness for `taskIds_pairwise_distinct`: the singleton list containing
the task created first (id 1) assigns the next id 2, and the list reached
by two submissions has distinct ids. -/
theorem taskIds_pairwise_distinct_witness :
    ((∀ t ∈ [(⟨1, "Essay", "English", "Homework", "2025-01-10", "High",
          TaskStatus.pending⟩ : StudyTask)],
        t.id < getNextTaskId [⟨1, "Essay", "English", "Homework",
          "2025-01-10", "High", TaskStatus.pending⟩]) ∧
      ∃ t ∈ [(⟨1, "Essay", "English", "Homework", "2025-01-10", "High",
          TaskStatus.pending⟩ : StudyTask)],
        getNextTaskId [⟨1, "Essay", "English", "Homework", "2025-01-10",
          "High", TaskStatus.pending⟩] = t.id + 1) ∧
    ((addTask (addTask [] ⟨"Essay", "English", "Homework", "2025-01-10",
        "High"⟩) ⟨"Lab", "Physics", "Homework", "2025-01-12",
        "Low"⟩).map (fun t => t.id)).Nodup :=
  ⟨taskIds_pairwise_distinct.2.1 [⟨1, "Essay", "English", "Homework",
      "2025-01-10", "High", TaskStatus.pending⟩] (by simp),
   taskIds_pairwise_distinct.2.2.1 _
     (TasksReachable.add _ _ (TasksReachable.add _ _ TasksReachable.init))⟩
